import Mathlib

/-!
Verification of the skytools statistics-collection library.

Shallow embedding of the Python sources
  src/python/skytools/stats_metrics.py  (metric algebra)
  src/python/skytools/stats.py          (context, flush engine, handler registry)
  src/python/skytools/stats_handlers.py (handler layer)
over exact rationals (ℚ) for the numeric state, with real-valued
evaluation (ℝ) where the source applies math.sqrt / math.pow / math.log.

Python 2 conventions that matter for faithfulness are modelled explicitly:
  * None compares less than every number (so the merge paths of
    GaugeMin / GaugeMidRange behave differently on empty aggregates);
  * a bare except clause catches every exception, including
    KeyboardInterrupt and SystemExit;
  * dicts are modelled as association lists in insertion order (the actual
    Python 2 hash order is a deterministic function of the insertion
    sequence, so two identically built dicts iterate identically).
-/

namespace Skytools

/-! ## Python 2 comparison of optional numbers

In Python 2, None is smaller than every number.  These appear in
GaugeMin.merge / GaugeMax.merge / GaugeMidRange.merge, which pass the
possibly-None stored value of the other aggregate to comparison. -/

def pyLt : Option ℚ → Option ℚ → Bool
  | none, none => false
  | none, some _ => true
  | some _, none => false
  | some a, some b => decide (a < b)

def pyGt : Option ℚ → Option ℚ → Bool
  | none, none => false
  | none, some _ => false
  | some _, none => true
  | some a, some b => decide (b < a)

/-! ## stats_metrics.py : the metric algebra

Every metric is modelled by its mutable state together with pure
state-transformer versions of update / merge / eval.  `aggregate`
builds a fresh aggregate (default constructor) and folds `update`
over a sample list, exactly what a sequence of update calls does. -/

namespace Counter

/-- Counter state: `self.value`, initially 0. -/
def update (s : ℚ) (delta : ℚ) : ℚ := s + delta

/-- Counter.merge: `self.update(that.value)`. -/
def merge (s t : ℚ) : ℚ := update s t

def eval (s : ℚ) : ℚ := s

def aggregate (l : List ℚ) : ℚ := l.foldl update 0

end Counter

namespace GaugeMin

/-- GaugeMin.update with a possibly-None argument: the merge path calls
`self.update(that.value)` where `that.value` may be None.
Source: `if self.value is None or value < self.value: self.value = value`. -/
def updateOpt (s v : Option ℚ) : Option ℚ :=
  if s = none ∨ pyLt v s then v else s

def update (s : Option ℚ) (x : ℚ) : Option ℚ := updateOpt s (some x)

def merge (s t : Option ℚ) : Option ℚ := updateOpt s t

/-- Gauge.eval: returns `self.value` (None for an empty aggregate). -/
def eval (s : Option ℚ) : Option ℚ := s

def aggregate (l : List ℚ) : Option ℚ := l.foldl update none

end GaugeMin

namespace GaugeMax

/-- Source: `if self.value is None or value > self.value: self.value = value`. -/
def updateOpt (s v : Option ℚ) : Option ℚ :=
  if s = none ∨ pyGt v s then v else s

def update (s : Option ℚ) (x : ℚ) : Option ℚ := updateOpt s (some x)

def merge (s t : Option ℚ) : Option ℚ := updateOpt s t

def eval (s : Option ℚ) : Option ℚ := s

def aggregate (l : List ℚ) : Option ℚ := l.foldl update none

end GaugeMax

/-- GaugeMidRange state: `self.min` and `self.max`, both None initially. -/
structure MidRangeState where
  mn : Option ℚ
  mx : Option ℚ
  deriving DecidableEq

namespace GaugeMidRange

def update (s : MidRangeState) (x : ℚ) : MidRangeState :=
  { mn := if s.mn = none ∨ pyLt (some x) s.mn then some x else s.mn
    mx := if s.mx = none ∨ pyGt (some x) s.mx then some x else s.mx }

/-- Source merge compares `that.min` / `that.max` (possibly None) directly. -/
def merge (s t : MidRangeState) : MidRangeState :=
  { mn := if s.mn = none ∨ pyLt t.mn s.mn then t.mn else s.mn
    mx := if s.mx = none ∨ pyGt t.mx s.mx then t.mx else s.mx }

/-- `float(self.min + self.max) / 2`; None operands raise, modelled as none. -/
def eval (s : MidRangeState) : Option ℚ :=
  match s.mn, s.mx with
  | some a, some b => some ((a + b) / 2)
  | _, _ => none

def aggregate (l : List ℚ) : MidRangeState := l.foldl update ⟨none, none⟩

end GaugeMidRange

namespace GaugeMedian

def update (s : List ℚ) (x : ℚ) : List ℚ := s ++ [x]

/-- `self._data.extend(that._data)`. -/
def merge (s t : List ℚ) : List ℚ := s ++ t

/-- Sorts the samples, then takes the middle element (odd length) or the
mean of the two middle elements (even length); indexing an empty list
raises, modelled as none. -/
def eval (s : List ℚ) : Option ℚ :=
  let d := s.insertionSort (· ≤ ·)
  let n := d.length
  let m := n / 2
  if n % 2 = 1 then d.get? m
  else
    match d.get? (m - 1), d.get? m with
    | some a, some b => some ((a + b) / 2)
    | _, _ => none

def aggregate (l : List ℚ) : List ℚ := l.foldl update []

end GaugeMedian

/-- GaugeMode multiplicity dict, as an association list in insertion order. -/
abbrev ModeMap := List (ℚ × ℕ)

namespace GaugeMode

/-- Add `c` to the multiplicity of `k` (append a new entry if absent):
the `self._data[k] += v` / `except KeyError: self._data[k] = v` pattern. -/
def bump : ModeMap → ℚ → ℕ → ModeMap
  | [], k, c => [(k, c)]
  | (k', c') :: rest, k, c =>
    if k' = k then (k', c' + c) :: rest else (k', c') :: bump rest k c

def update (m : ModeMap) (v : ℚ) : ModeMap := bump m v 1

/-- `for k,v in that._data.iteritems(): self._data[k] += v` (insert on KeyError). -/
def merge (a b : ModeMap) : ModeMap :=
  b.foldl (fun acc p => bump acc p.1 p.2) a

/-- `max(self._data.iteritems(), key = lambda t: t[1])[0]`; Python max keeps
the first maximal item in iteration order, and raises on an empty dict. -/
def eval (m : ModeMap) : Option ℚ :=
  match m with
  | [] => none
  | e :: rest => some ((rest.foldl (fun best p => if best.2 < p.2 then p else best) e).1)

def aggregate (l : List ℚ) : ModeMap := l.foldl update []

end GaugeMode

/-- Shared state shape of the (count, accumulator) mean family. -/
structure MeanState where
  count : ℕ
  temp : ℚ
  deriving DecidableEq

namespace GaugeAMean

def update (s : MeanState) (x : ℚ) : MeanState := ⟨s.count + 1, s.temp + x⟩

def merge (s t : MeanState) : MeanState := ⟨s.count + t.count, s.temp + t.temp⟩

/-- `self._temp / float(self.count)` (raises on an empty aggregate in Python;
ℚ division by zero yields 0 here, never relied upon below). -/
def eval (s : MeanState) : ℚ := s.temp / (s.count : ℚ)

def aggregate (l : List ℚ) : MeanState := l.foldl update ⟨0, 0⟩

end GaugeAMean

namespace GaugeGMean

/-- Source asserts `value > 0` before multiplying it into `self._temp`. -/
def update (s : MeanState) (x : ℚ) : MeanState := ⟨s.count + 1, s.temp * x⟩

def merge (s t : MeanState) : MeanState := ⟨s.count + t.count, s.temp * t.temp⟩

/-- `math.pow(self._temp, 1./self.count)`. -/
noncomputable def eval (s : MeanState) : ℝ :=
  (s.temp : ℝ) ^ ((1 : ℝ) / (s.count : ℝ))

def aggregate (l : List ℚ) : MeanState := l.foldl update ⟨0, 1⟩

end GaugeGMean

namespace GaugeHMean

/-- Source asserts `value > 0`, then adds `1./value`. -/
def update (s : MeanState) (x : ℚ) : MeanState := ⟨s.count + 1, s.temp + 1 / x⟩

def merge (s t : MeanState) : MeanState := ⟨s.count + t.count, s.temp + t.temp⟩

/-- `self.count / self._temp`. -/
def eval (s : MeanState) : ℚ := (s.count : ℚ) / s.temp

def aggregate (l : List ℚ) : MeanState := l.foldl update ⟨0, 0⟩

end GaugeHMean

namespace GaugeQMean

def update (s : MeanState) (x : ℚ) : MeanState := ⟨s.count + 1, s.temp + x ^ 2⟩

def merge (s t : MeanState) : MeanState := ⟨s.count + t.count, s.temp + t.temp⟩

/-- `math.sqrt(self._temp / float(self.count))`. -/
noncomputable def eval (s : MeanState) : ℝ :=
  Real.sqrt ((s.temp : ℝ) / (s.count : ℝ))

def aggregate (l : List ℚ) : MeanState := l.foldl update ⟨0, 0⟩

end GaugeQMean

namespace GaugeWAMean

/-- Errors the Python update can raise: the `assert data[1] >= 0`
precondition check, and float division by zero. -/
inductive Err where
  | assertFailed
  | zeroDivision
  deriving DecidableEq

/-- Fresh state: `self.data = data or (0.0, 0.0)` with `data = None`. -/
def init : ℚ × ℚ := (0, 0)

/-- GaugeWAMean.update: asserts `data[1] >= 0`, then divides by the
accumulated weight `self.data[1] + data[1]` with no zero guard. -/
def update (s : ℚ × ℚ) (d : ℚ × ℚ) : Except Err (ℚ × ℚ) :=
  if d.2 < 0 then .error .assertFailed
  else
    let w := s.2 + d.2
    if w = 0 then .error .zeroDivision
    else .ok ((s.1 * s.2 + d.1 * d.2) / w, w)

end GaugeWAMean

namespace GaugeWGMean

/-- Fresh state: `self.data = data or (1.0, 0.0)` with `data = None`. -/
def init : ℝ × ℝ := (1, 0)

/-- GaugeWGMean.update: note that `math.log` is applied to the stored
`self.data[0]` on every call, although the stored value is itself
already a logarithm after the first update. -/
noncomputable def update (s : ℝ × ℝ) (d : ℝ × ℝ) : ℝ × ℝ :=
  let w := s.2 + d.2
  ((Real.log s.1 * s.2 + Real.log d.1 * d.2) / w, w)

def eval (s : ℝ × ℝ) : ℝ := s.1

end GaugeWGMean

/-! ## stats.py : context, flush engine, merge path, handler registry -/

/-- A value stored in `Context.data`: either a plain number (the `inc`
fast path) or a Metric.  The Metric case is represented by the
GaugeAMean state `(count, temp)`, the metric that stats.py itself
creates on the `avg` path; its merge adds both components. -/
inductive StatVal where
  | num (q : ℚ)
  | metric (m : MeanState)
  deriving DecidableEq

/-- One snapshot of the data map: association list in insertion order. -/
abbrev Snapshot := List (String × StatVal)

/-- Python dict assignment `d[k] = v`: replace in place, else append. -/
def setKV {α : Type} : List (String × α) → String → α → List (String × α)
  | [], k, v => [(k, v)]
  | (k', v') :: rest, k, v =>
    if k' = k then (k, v) :: rest else (k', v') :: setKV rest k v

/-- Exceptions a handler can raise out of `process`. -/
inductive PyExc where
  | keyboardInterrupt
  | systemExit
  | otherError
  deriving DecidableEq

/-- Result of one `handler.process(data)` call. -/
inductive HandlerRes where
  | ok
  | raise (e : PyExc)
  deriving DecidableEq

/-- The Context of stats.py: the data map, the monotonic timestamp of the
last flush attempt, the flush interval (default 30) and the handler map
in insertion order.  `H` is the handler payload type. -/
structure Ctx (H : Type) where
  data : Snapshot
  time : ℚ
  interval : ℚ
  handlers : List (String × H)
  deriving DecidableEq

/-- reset_stats: atomically swap `ctx.data` for a fresh empty map and
return the old one. -/
def resetStats {H : Type} (c : Ctx H) : Snapshot × Ctx H :=
  (c.data, { c with data := [] })

/-- process_stats: gate on `now - ctx.time < ctx.interval and not force`;
otherwise set `ctx.time = now`, take the snapshot via reset_stats and call
every handler's `process` on it inside a bare `except:` (which in Python 2
catches every exception, KeyboardInterrupt and SystemExit included),
logging failures with the handler id.  Returns the new context, the list
of handler invocations `(handler id, snapshot passed)` in order, and the
ids logged by the except clause. -/
def processStats {H : Type} (emitOf : H → Snapshot → HandlerRes)
    (force : Bool) (now : ℚ) (c : Ctx H) :
    Ctx H × List (String × Snapshot) × List String :=
  if now - c.time < c.interval ∧ force = false then (c, [], [])
  else
    let p := resetStats { c with time := now }
    let r := c.handlers.foldl (fun acc hh =>
      match emitOf hh.2 p.1 with
      | .ok => (acc.1 ++ [(hh.1, p.1)], acc.2)
      | .raise _ => (acc.1 ++ [(hh.1, p.1)], acc.2 ++ [hh.1])) ([], [])
    (p.2, r.1, r.2)

/-- The exception that escapes merge_stats on a type-incompatible pair:
after `ctx.data[k] += v` raises TypeError, the fallback
`ctx.data[k].merge(v)` hits a missing attribute (`merge` on a number, or
`that.count` on a number inside GaugeAMean.merge) and the resulting
AttributeError is not caught by any clause. -/
inductive MergeExc where
  | attributeError
  deriving DecidableEq

/-- One successful merge_stats step for a compatible entry:
absent key → insert; number + number → sum in place;
Metric + Metric → `Metric.merge` in place. -/
def mergeStep (d : Snapshot) (e : String × StatVal) : Snapshot :=
  match List.lookup e.1 d, e.2 with
  | none, v => setKV d e.1 v
  | some (.num a), .num b => setKV d e.1 (.num (a + b))
  | some (.metric m), .metric m' => setKV d e.1 (.metric (GaugeAMean.merge m m'))
  | some (.num _), .metric _ => d
  | some (.metric _), .num _ => d

/-- Whether an incoming entry is type-compatible with the current map. -/
def compatible (d : Snapshot) (e : String × StatVal) : Bool :=
  match List.lookup e.1 d, e.2 with
  | none, _ => true
  | some (.num _), .num _ => true
  | some (.metric _), .metric _ => true
  | some (.num _), .metric _ => false
  | some (.metric _), .num _ => false

/-- merge_stats: fold the incoming entries into `ctx.data`; a
type-incompatible pair raises AttributeError, which leaves the updates
made so far in place and stops the traversal.  No logging call exists on
this path. -/
def mergeStats {H : Type} : List (String × StatVal) → Ctx H →
    Ctx H × Option MergeExc
  | [], c => (c, none)
  | e :: rest, c =>
    if compatible c.data e then
      mergeStats rest { c with data := mergeStep c.data e }
    else (c, some .attributeError)

/-- All entries stay compatible while being folded in, in order. -/
def allCompatible : Snapshot → List (String × StatVal) → Bool
  | _, [] => true
  | d, e :: rest => compatible d e && allCompatible (mergeStep d e) rest

/-- What configure_handler ends up installing: an instance of the class
registered for the scheme, or the `SkyLogHandler('')` fallback. -/
inductive InstalledHandler where
  | byScheme (s : String)
  | skyLogFallback
  deriving DecidableEq

/-- The scheme of a backend URL: the part before the first colon
(urlparse on `scheme://...`). -/
def schemeOf (backend : String) : String :=
  String.mk (backend.toList.takeWhile (· ≠ ':'))

/-- `backend.find(':') > 0`: a colon occurs, not at position 0. -/
def hasUrlColon (backend : String) : Bool :=
  backend.toList.contains ':' && !(backend.toList.takeWhile (· ≠ ':')).isEmpty

/-- configure_handler: parse the backend, look the scheme up in the
registry; an unknown scheme or bare name only logs a warning, after which
`if not hnd: hnd = SkyLogHandler('')` installs the fallback.  The handler
is always inserted under `name or backend`, replacing any previous entry.
Returns the new context and the warnings logged. -/
def configureHandler (reg : List String) (backend : String)
    (name : Option String) (c : Ctx InstalledHandler) :
    Ctx InstalledHandler × List String :=
  let hid := name.getD backend
  let r : InstalledHandler × List String :=
    if hasUrlColon backend then
      if schemeOf backend ∈ reg then (.byScheme (schemeOf backend), [])
      else (.skyLogFallback, ["Unknown stats handler: " ++ schemeOf backend])
    else
      if backend ∈ reg then (.byScheme backend, [])
      else (.skyLogFallback, ["Invalid stats handler: " ++ backend])
  ({ c with handlers := setKV c.handlers hid r.1 }, r.2)

/-! ## stats_handlers.py : SocketHandler reconnect state machine -/

/-- Exponential backoff constants set in SocketHandler.__init__. -/
def retryStart : ℚ := 1

def retryMax : ℚ := 30

def retryFactor : ℚ := 2

/-- SocketHandler connection state.  `retryPeriod` has no Python value
until the first failed connect writes it; it is only ever read after
`retryTime` has been set, so the placeholder 0 is never observable. -/
structure SockState where
  sock : Bool
  retryTime : Option ℚ
  retryPeriod : ℚ
  deriving DecidableEq

/-- Initial handler state: `sock = None`, `retry_time = None`. -/
def initSock : SockState := ⟨false, none, 0⟩

/-- create_socket: attempt when `retry_time` is None or `now >= retry_time`.
On success store the socket and clear `retry_time`; on failure set
`retry_period` to `retry_start` (first failure) or
`min(retry_period * retry_factor, retry_max)` (later failures) and set
`retry_time = now + retry_period`.  The Boolean reports whether a connect
was attempted at all. -/
def createSocket (now : ℚ) (connectOk : Bool) (s : SockState) :
    SockState × Bool :=
  let attempt : Bool :=
    match s.retryTime with
    | none => true
    | some t => decide (t ≤ now)
  if attempt then
    if connectOk then ({ s with sock := true, retryTime := none }, true)
    else
      let p :=
        match s.retryTime with
        | none => retryStart
        | some _ => min (s.retryPeriod * retryFactor) retryMax
      ({ s with retryPeriod := p, retryTime := some (now + p) }, true)
  else (s, false)

/-- SocketHandler.send: connect first if there is no socket; if there is
still no socket the frame is dropped; a socket error during sendall
closes the socket.  Returns (state, frame sent?, connect attempted?). -/
def send (now : ℚ) (connectOk : Bool) (sendOk : Bool) (s : SockState) :
    SockState × Bool × Bool :=
  let r := if s.sock then (s, false) else createSocket now connectOk s
  let s := r.1
  if s.sock then
    if sendOk then (s, true, r.2)
    else ({ s with sock := false }, false, r.2)
  else (s, false, r.2)

/-- A run of consecutive failed connect attempts at the given times. -/
def failChain (s : SockState) (ts : List ℚ) : SockState :=
  ts.foldl (fun s t => (createSocket t false s).1) s

/-- Every attempt in the chain is due when it happens
(`retry_time` is None, or the attempt time has reached it). -/
def chainDue : SockState → List ℚ → Bool
  | _, [] => true
  | s, t :: ts =>
    (match s.retryTime with
     | none => true
     | some rt => decide (rt ≤ t)) &&
    chainDue (createSocket t false s).1 ts

/-! ## stats_handlers.py : make_pickle framing and dictionary enrichment -/

/-- A value inside a rendered dictionary. -/
inductive RVal where
  | num (q : ℚ)
  | str (s : String)
  deriving DecidableEq

abbrev RDict := List (String × RVal)

/-- The object handed to make_pickle: it either supports `render_dict()`
or is wrapped as `{'value': metric}`; `type(metric).__name__` is the
variant name used by enrichment. -/
structure MetricObj where
  renderDict : Option RDict
  selfVal : RVal
  typeName : String

/-- Python `d.update(other)`: assign the entries of `other` in order. -/
def dictUpdate {α : Type} (d other : List (String × α)) : List (String × α) :=
  other.foldl (fun acc kv => setKV acc kv.1 kv.2) d

/-- Handler.enrich with the default
`extra_attrs = {'type': lambda m: type(m).__name__}`. -/
def enrich (m : MetricObj) : RDict := [("type", .str m.typeName)]

/-- The dictionary make_pickle serializes:
render_dict (or the `{'value': …}` wrapper) updated with the enrichment
attributes, then with the caller's keyword arguments. -/
def pickleDict (m : MetricObj) (kwargs : RDict) : RDict :=
  dictUpdate (dictUpdate (m.renderDict.getD [("value", m.selfVal)]) (enrich m)) kwargs

/-- `struct.pack(">L", n)`: 4 bytes, big-endian (valid for n < 2^32). -/
def pack4BE (n : ℕ) : List ℕ :=
  [n / 2 ^ 24 % 256, n / 2 ^ 16 % 256, n / 2 ^ 8 % 256, n % 256]

/-- Big-endian read of a 4-byte prefix. -/
def unpack4BE (l : List ℕ) : ℕ :=
  match l with
  | b0 :: b1 :: b2 :: b3 :: _ => ((b0 * 256 + b1) * 256 + b2) * 256 + b3
  | _ => 0

/-- SocketHandler.make_pickle: length-prefixed frame around the opaque
structured-value encoding of the enriched dictionary. -/
def makePickle (encode : RDict → List ℕ) (m : MetricObj) (kwargs : RDict) :
    List ℕ :=
  let s := encode (pickleDict m kwargs)
  pack4BE s.length ++ s

/-! ## SkyLogHandler.emit : both drafts -/

/-- Logger severity used by the text handler. -/
inductive Level where
  | info
  deriving DecidableEq

/-- The single line both emit drafts build:
keys sorted ascending, each entry rendered `key: str(value)`,
joined by `", "`, wrapped in braces. -/
def emitLine {V : Type} (render : V → String) (data : List (String × V)) :
    String :=
  let line := ((data.map Prod.fst).insertionSort (· ≤ ·)).map fun k =>
    k ++ ": " ++ (match List.lookup k data with
                  | some v => render v
                  | none => "")
  "\x7b" ++ String.intercalate ", " line ++ "\x7d"

/-- SkyLogHandler.emit of stats_handlers.py: returns early on an empty
snapshot, otherwise delivers the line at INFO severity. -/
def emitHandlers {V : Type} (render : V → String)
    (data : List (String × V)) : List (Level × String) :=
  if data.length = 0 then [] else [(Level.info, emitLine render data)]

/-- SkyLogHandler.emit of stats.py: no empty-snapshot check, the line is
always delivered at INFO severity. -/
def emitStats {V : Type} (render : V → String)
    (data : List (String × V)) : List (Level × String) :=
  [(Level.info, emitLine render data)]

/-! ## Supporting lemmas -/

theorem lookup_setKV_self {α : Type} (l : List (String × α)) (k : String)
    (v : α) : List.lookup k (setKV l k v) = some v := by
  induction l with
  | nil => simp [setKV, List.lookup]
  | cons e rest ih =>
    obtain ⟨a, b⟩ := e
    by_cases h : a = k
    · simp [setKV, h, List.lookup]
    · have hb : (k == a) = false := beq_eq_false_iff_ne.mpr (Ne.symm h)
      simp [setKV, h, List.lookup, hb, ih]

theorem lookup_setKV_ne {α : Type} (l : List (String × α)) (k k' : String)
    (v : α) (h : k' ≠ k) :
    List.lookup k' (setKV l k v) = List.lookup k' l := by
  have hb : (k' == k) = false := beq_eq_false_iff_ne.mpr h
  induction l with
  | nil => simp [setKV, List.lookup, hb]
  | cons e rest ih =>
    obtain ⟨a, b⟩ := e
    by_cases he : a = k
    · subst he
      simp [setKV, List.lookup, hb]
    · simp [setKV, he, List.lookup, ih]

theorem lookup_eq_none_of_not_mem {α : Type} (l : List (String × α))
    (k : String) (h : k ∉ l.map Prod.fst) : List.lookup k l = none := by
  induction l with
  | nil => rfl
  | cons e rest ih =>
    obtain ⟨a, b⟩ := e
    simp only [List.map_cons, List.mem_cons, not_or] at h
    have hb : (k == a) = false := beq_eq_false_iff_ne.mpr h.1
    simp [List.lookup, hb, ih h.2]

theorem lookup_dictUpdate {α : Type} (d other : List (String × α))
    (k : String) (h : (other.map Prod.fst).Nodup) :
    List.lookup k (dictUpdate d other) =
      (List.lookup k other).orElse (fun _ => List.lookup k d) := by
  induction other generalizing d with
  | nil => simp [dictUpdate]
  | cons e rest ih =>
    obtain ⟨a, b⟩ := e
    simp only [List.map_cons, List.nodup_cons] at h
    have hrec := ih (setKV d a b) h.2
    by_cases hk : k = a
    · subst hk
      have hnone : List.lookup k rest = none :=
        lookup_eq_none_of_not_mem rest k h.1
      simp [dictUpdate, List.foldl_cons, List.lookup] at hrec ⊢
      simp [hrec, hnone, lookup_setKV_self]
    · have hb : (k == a) = false := beq_eq_false_iff_ne.mpr hk
      simp [dictUpdate, List.foldl_cons, List.lookup, hb] at hrec ⊢
      simp [hrec, hb, lookup_setKV_ne _ _ _ _ hk]

theorem mergeStats_all_ok {H : Type} :
    ∀ (entries : List (String × StatVal)) (c : Ctx H),
      allCompatible c.data entries = true →
      mergeStats entries c =
        ({ c with data := entries.foldl mergeStep c.data }, none) := by
  intro entries
  induction entries with
  | nil => intro c _; simp [mergeStats]
  | cons e rest ih =>
    intro c h
    simp only [allCompatible, Bool.and_eq_true] at h
    simp [mergeStats, h.1, ih { c with data := mergeStep c.data e } h.2]

theorem mergeStats_abort {H : Type} :
    ∀ (pre : List (String × StatVal)) (c : Ctx H)
      (e : String × StatVal) (post : List (String × StatVal)),
      allCompatible c.data pre = true →
      compatible (pre.foldl mergeStep c.data) e = false →
      mergeStats (pre ++ e :: post) c =
        ({ c with data := pre.foldl mergeStep c.data },
         some MergeExc.attributeError) := by
  intro pre
  induction pre with
  | nil =>
    intro c e post _ hbad
    simp only [List.foldl_nil] at hbad
    simp [mergeStats, hbad]
  | cons p pre' ih =>
    intro c e post h hbad
    simp only [allCompatible, Bool.and_eq_true] at h
    simp only [List.foldl_cons] at hbad
    simp [mergeStats, h.1, ih { c with data := mergeStep c.data p } e post h.2 hbad]

/-- C3 (amended): merge_stats handles each incoming entry by inserting it
when the key is absent, summing when both values are plain numbers, and
invoking Metric.merge when the stored value is a Metric; but a
type-incompatible pair raises an uncaught AttributeError that aborts the
traversal: the entries already folded in stay applied, the offending and
all remaining entries are not processed, and nothing is logged. -/
theorem C3_merge_stats_entries {H : Type} (c : Ctx H)
    (entries : List (String × StatVal)) :
    (allCompatible c.data entries = true →
      mergeStats entries c =
        ({ c with data := entries.foldl mergeStep c.data }, none)) ∧
    (∀ pre e post, entries = pre ++ e :: post →
      allCompatible c.data pre = true →
      compatible (pre.foldl mergeStep c.data) e = false →
      mergeStats entries c =
        ({ c with data := pre.foldl mergeStep c.data },
         some MergeExc.attributeError)) ∧
    (∀ (d : Snapshot) (k : String) (v : StatVal),
      List.lookup k d = none → mergeStep d (k, v) = setKV d k v) ∧
    (∀ (d : Snapshot) (k : String) (a b : ℚ),
      List.lookup k d = some (.num a) →
      mergeStep d (k, .num b) = setKV d k (.num (a + b))) ∧
    (∀ (d : Snapshot) (k : String) (m m' : MeanState),
      List.lookup k d = some (.metric m) →
      mergeStep d (k, .metric m') = setKV d k (.metric (GaugeAMean.merge m m'))) := by
  refine ⟨mergeStats_all_ok entries c, ?_, ?_, ?_, ?_⟩
  · intro pre e post hsplit h hbad
    subst hsplit
    exact mergeStats_abort pre c e post h hbad
  · intro d k v hl
    cases v <;> simp [mergeStep, hl]
  · intro d k a b hl
    simp [mergeStep, hl]
  · intro d k m m' hl
    simp [mergeStep, hl]

/-- Witness for C3: a fully compatible merge applies every entry, and a
run with an incompatible second entry aborts right there. -/
theorem C3_merge_stats_entries_witness :
    (allCompatible [("a", StatVal.num 1)] [("a", StatVal.num 2), ("b", StatVal.num 5)] = true ∧
      mergeStats [("a", StatVal.num 2), ("b", StatVal.num 5)]
        (⟨[("a", StatVal.num 1)], 0, 30, []⟩ : Ctx Unit) =
        (⟨[("a", StatVal.num 3), ("b", StatVal.num 5)], 0, 30, []⟩, none)) ∧
    (compatible [("a", StatVal.num 1)] ("a", StatVal.metric ⟨1, 3⟩) = false ∧
      mergeStats [("a", StatVal.metric ⟨1, 3⟩), ("b", StatVal.num 5)]
        (⟨[("a", StatVal.num 1)], 0, 30, []⟩ : Ctx Unit) =
        (⟨[("a", StatVal.num 1)], 0, 30, []⟩, some MergeExc.attributeError)) := by
  constructor
  · refine ⟨by decide, ?_⟩
    have h := (C3_merge_stats_entries (⟨[("a", StatVal.num 1)], 0, 30, []⟩ : Ctx Unit)
      [("a", StatVal.num 2), ("b", StatVal.num 5)]).1 (by decide)
    rw [h]
    norm_num [mergeStep, List.lookup, setKV]
    decide
  · refine ⟨by decide, ?_⟩
    have h := (C3_merge_stats_entries (⟨[("a", StatVal.num 1)], 0, 30, []⟩ : Ctx Unit)
      [("a", StatVal.metric ⟨1, 3⟩), ("b", StatVal.num 5)]).2.1
      [] ("a", StatVal.metric ⟨1, 3⟩) [("b", StatVal.num 5)] rfl (by decide) (by decide)
    rw [h]
    rfl

/-- Counterexample to C3 as stated: with stored plain numbers under both
keys, an incoming Metric under key a is type-incompatible; merge_stats
raises (AttributeError) instead of logging, and the remaining entry for
key b is never summed, so the traversal does abort. -/
theorem C3_counterexample :
    mergeStats [("a", StatVal.metric ⟨1, 3⟩), ("b", StatVal.num 5)]
      (⟨[("a", StatVal.num 1), ("b", StatVal.num 2)], 0, 30, []⟩ : Ctx Unit) =
      (⟨[("a", StatVal.num 1), ("b", StatVal.num 2)], 0, 30, []⟩,
       some MergeExc.attributeError) ∧
    List.lookup "b" (mergeStats [("a", StatVal.metric ⟨1, 3⟩), ("b", StatVal.num 5)]
      (⟨[("a", StatVal.num 1), ("b", StatVal.num 2)], 0, 30, []⟩ : Ctx Unit)).1.data =
      some (StatVal.num 2) := by
  constructor <;> decide

/-- C10: a freshly constructed GaugeWAMean has state (0, 0); updating it
with any sample of weight exactly zero passes the `assert data[1] >= 0`
check and then divides by a zero total weight, raising ZeroDivisionError;
the update succeeds whenever the running total weight including the new
sample is positive. -/
theorem C10_wamean_zero_weight :
    (∀ x : ℚ, GaugeWAMean.update GaugeWAMean.init (x, 0) =
      .error GaugeWAMean.Err.zeroDivision) ∧
    (∀ (s : ℚ × ℚ) (x w : ℚ), 0 ≤ w → 0 < s.2 + w →
      GaugeWAMean.update s (x, w) =
        .ok ((s.1 * s.2 + x * w) / (s.2 + w), s.2 + w)) := by
  constructor
  · intro x
    simp [GaugeWAMean.update, GaugeWAMean.init]
  · intro s x w hw hpos
    simp [GaugeWAMean.update, not_lt.mpr hw, ne_of_gt hpos]

/-- Witness for C10: weight 0 on a fresh aggregate raises, weight 2 works. -/
theorem C10_wamean_zero_weight_witness :
    (GaugeWAMean.update GaugeWAMean.init (5, 0) =
      .error GaugeWAMean.Err.zeroDivision) ∧
    (0 ≤ (2 : ℚ) ∧ 0 < GaugeWAMean.init.2 + 2 ∧
      GaugeWAMean.update GaugeWAMean.init (5, 2) =
        .ok ((GaugeWAMean.init.1 * GaugeWAMean.init.2 + 5 * 2) /
          (GaugeWAMean.init.2 + 2), GaugeWAMean.init.2 + 2)) :=
  ⟨C10_wamean_zero_weight.1 5,
   by norm_num,
   by norm_num [GaugeWAMean.init],
   C10_wamean_zero_weight.2 GaugeWAMean.init 5 2 (by norm_num)
     (by norm_num [GaugeWAMean.init])⟩

/-- C5 (amended): configure_handler with a backend URL whose scheme is not
registered (or a bare backend name that is not a registered scheme) does
not raise: it logs a warning and installs the SkyLogHandler fallback under
the id `name or backend`; a registered scheme installs that scheme's
handler class. -/
theorem C5_unknown_scheme_fallback (reg : List String) (backend : String)
    (name : Option String) (c : Ctx InstalledHandler) :
    (hasUrlColon backend = true → schemeOf backend ∉ reg →
      configureHandler reg backend name c =
        ({ c with
            handlers := setKV c.handlers (name.getD backend) InstalledHandler.skyLogFallback },
         ["Unknown stats handler: " ++ schemeOf backend]) ∧
      List.lookup (name.getD backend)
        (configureHandler reg backend name c).1.handlers =
        some InstalledHandler.skyLogFallback) ∧
    (hasUrlColon backend = false → backend ∉ reg →
      configureHandler reg backend name c =
        ({ c with
            handlers := setKV c.handlers (name.getD backend) InstalledHandler.skyLogFallback },
         ["Invalid stats handler: " ++ backend])) ∧
    (hasUrlColon backend = true → schemeOf backend ∈ reg →
      configureHandler reg backend name c =
        ({ c with
            handlers := setKV c.handlers (name.getD backend)
              (InstalledHandler.byScheme (schemeOf backend)) }, [])) := by
  refine ⟨fun hc hm => ⟨?_, ?_⟩, fun hc hm => ?_, fun hc hm => ?_⟩
  · simp [configureHandler, hc, hm]
  · simp [configureHandler, hc, hm, lookup_setKV_self]
  · simp [configureHandler, hc, hm]
  · simp [configureHandler, hc, hm]

/-- Witness for C5: the scheme bogus is not in the default registry, so a
SkyLogHandler fallback is installed under the backend string itself. -/
theorem C5_unknown_scheme_fallback_witness :
    (hasUrlColon "bogus://h:1" = true ∧
      schemeOf "bogus://h:1" ∉ ["log", "tcp", "udp", "tnetstr"]) ∧
    List.lookup "bogus://h:1"
      (configureHandler ["log", "tcp", "udp", "tnetstr"] "bogus://h:1" none
        (⟨[], 0, 30, []⟩ : Ctx InstalledHandler)).1.handlers =
      some InstalledHandler.skyLogFallback :=
  ⟨⟨by decide, by decide⟩,
   ((C5_unknown_scheme_fallback ["log", "tcp", "udp", "tnetstr"] "bogus://h:1"
      none (⟨[], 0, 30, []⟩ : Ctx InstalledHandler)).1 (by decide) (by decide)).2⟩

/-- Counterexample to C5 as stated: configure_handler on an unregistered
scheme installs a handler (the SkyLogHandler fallback) under the backend
id and returns normally, instead of raising a domain error and installing
nothing; the only trace is a logged warning. -/
theorem C5_counterexample :
    (configureHandler ["log", "tcp", "udp", "tnetstr"] "bogus://h:1" none
      (⟨[], 0, 30, []⟩ : Ctx InstalledHandler)).1.handlers =
      [("bogus://h:1", InstalledHandler.skyLogFallback)] ∧
    (configureHandler ["log", "tcp", "udp", "tnetstr"] "bogus://h:1" none
      (⟨[], 0, 30, []⟩ : Ctx InstalledHandler)).2 =
      ["Unknown stats handler: bogus"] := by
  constructor <;> decide

theorem processStats_fold {H : Type} (emitOf : H → Snapshot → HandlerRes)
    (data : Snapshot) :
    ∀ (hs : List (String × H)) (invs : List (String × Snapshot))
      (logs : List String),
      hs.foldl (fun acc hh =>
        match emitOf hh.2 data with
        | .ok => (acc.1 ++ [(hh.1, data)], acc.2)
        | .raise _ => (acc.1 ++ [(hh.1, data)], acc.2 ++ [hh.1])) (invs, logs) =
      (invs ++ hs.map (fun hh => (hh.1, data)),
       logs ++ (hs.filter (fun hh => emitOf hh.2 data != .ok)).map Prod.fst) := by
  intro hs
  induction hs with
  | nil => intro invs logs; simp
  | cons hh rest ih =>
    intro invs logs
    rcases hr : emitOf hh.2 data with _ | e <;>
      simp [List.foldl_cons, hr, ih, List.filter_cons]

theorem processStats_flush {H : Type} (emitOf : H → Snapshot → HandlerRes)
    (force : Bool) (now : ℚ) (c : Ctx H)
    (h : ¬ (now - c.time < c.interval ∧ force = false)) :
    processStats emitOf force now c =
      ({ c with time := now, data := [] },
       c.handlers.map (fun hh => (hh.1, c.data)),
       (c.handlers.filter (fun hh => emitOf hh.2 c.data != .ok)).map Prod.fst) := by
  simp only [processStats, if_neg h, resetStats]
  rw [processStats_fold emitOf c.data c.handlers [] []]
  simp

/-- C2 (amended): process_stats with force false returns immediately with
the context untouched and no handler invoked when now - time < interval;
otherwise it sets time to now, swaps in a fresh empty data map via
reset_stats and invokes each handler exactly once on the removed
snapshot.  Consequently two process_stats(false) calls less than the
interval apart produce at most one flush of the handler list: exactly one
when the first call is due (interval <= now1 - time), and none at all
when both calls fall inside the interval since the last flush; with
force=true every call produces one. -/
theorem C2_flush_gating {H : Type} (emitOf : H → Snapshot → HandlerRes)
    (c : Ctx H) (now : ℚ) (force : Bool) :
    (now - c.time < c.interval → force = false →
      processStats emitOf force now c = (c, [], [])) ∧
    (¬ (now - c.time < c.interval ∧ force = false) →
      processStats emitOf force now c =
        ({ c with time := now, data := [] },
         c.handlers.map (fun hh => (hh.1, c.data)),
         (c.handlers.filter (fun hh => emitOf hh.2 c.data != .ok)).map Prod.fst)) ∧
    (∀ now₂ : ℚ, now₂ - now < c.interval →
      ((processStats emitOf false now c).2.1 ++
        (processStats emitOf false now₂ (processStats emitOf false now c).1).2.1).length ≤
        c.handlers.length) ∧
    (∀ now₂ : ℚ, now₂ - now < c.interval → c.interval ≤ now - c.time →
      ((processStats emitOf false now c).2.1 ++
        (processStats emitOf false now₂ (processStats emitOf false now c).1).2.1).length =
        c.handlers.length) ∧
    (processStats emitOf true now c).2.1.length = c.handlers.length := by
  have hgate : ∀ (now' : ℚ) (c' : Ctx H), now' - c'.time < c'.interval →
      processStats emitOf false now' c' = (c', [], []) := by
    intro now' c' h
    simp [processStats, h]
  refine ⟨?_, ?_, ?_, ?_, ?_⟩
  · intro h hf
    subst hf
    exact hgate now c h
  · exact processStats_flush emitOf force now c
  · intro now₂ h₂
    by_cases h1 : now - c.time < c.interval
    · rw [hgate now c h1]
      by_cases h2 : now₂ - c.time < c.interval
      · rw [hgate now₂ c h2]; simp
      · rw [processStats_flush emitOf false now₂ c (by simp [h2])]
        simp
    · rw [processStats_flush emitOf false now c (by simp [h1])]
      have h2 : now₂ - ({ c with time := now, data := [] } : Ctx H).time <
          ({ c with time := now, data := [] } : Ctx H).interval := h₂
      rw [hgate now₂ _ h2]
      simp
  · intro now₂ h₂ hdue
    have h1 : ¬ now - c.time < c.interval := not_lt.mpr hdue
    rw [processStats_flush emitOf false now c (by simp [h1])]
    have h2 : now₂ - ({ c with time := now, data := [] } : Ctx H).time <
        ({ c with time := now, data := [] } : Ctx H).interval := h₂
    rw [hgate now₂ _ h2]
    simp
  · rw [processStats_flush emitOf true now c (by simp)]
    simp

/-- Witness for C2: with one handler and interval 30, a gated call changes
nothing, a forced call invokes the handler, and the gating hypotheses hold
at the chosen times. -/
theorem C2_flush_gating_witness :
    ((1 : ℚ) - 0 < 30 ∧
      processStats (fun (b : HandlerRes) (_ : Snapshot) => b) false 1
        (⟨[("k", StatVal.num 1)], 0, 30, [("h", HandlerRes.ok)]⟩ : Ctx HandlerRes) =
        (⟨[("k", StatVal.num 1)], 0, 30, [("h", HandlerRes.ok)]⟩, [], [])) ∧
    (processStats (fun (b : HandlerRes) (_ : Snapshot) => b) true 1
      (⟨[("k", StatVal.num 1)], 0, 30, [("h", HandlerRes.ok)]⟩ : Ctx HandlerRes)).2.1.length =
      1 := by
  refine ⟨⟨by norm_num, ?_⟩, ?_⟩
  · exact (C2_flush_gating (fun (b : HandlerRes) (_ : Snapshot) => b)
      (⟨[("k", StatVal.num 1)], 0, 30, [("h", HandlerRes.ok)]⟩ : Ctx HandlerRes)
      1 false).1 (by norm_num) rfl
  · exact (C2_flush_gating (fun (b : HandlerRes) (_ : Snapshot) => b)
      (⟨[("k", StatVal.num 1)], 0, 30, [("h", HandlerRes.ok)]⟩ : Ctx HandlerRes)
      1 true).2.2.2.2

/-- Counterexample to C2 as stated: with the last flush at time 0 and
interval 30, process_stats(false) calls at times 1 and 2 are both gated,
so the two calls less than one interval apart produce zero handler
invocations, not exactly one. -/
theorem C2_counterexample :
    ((processStats (fun (b : HandlerRes) (_ : Snapshot) => b) false 1
        (⟨[("k", StatVal.num 1)], 0, 30, [("h", HandlerRes.ok)]⟩ : Ctx HandlerRes)).2.1 ++
      (processStats (fun (b : HandlerRes) (_ : Snapshot) => b) false 2
        (processStats (fun (b : HandlerRes) (_ : Snapshot) => b) false 1
          (⟨[("k", StatVal.num 1)], 0, 30, [("h", HandlerRes.ok)]⟩ : Ctx HandlerRes)).1).2.1).length ≠
      1 := by
  have h1 : processStats (fun (b : HandlerRes) (_ : Snapshot) => b) false 1
      (⟨[("k", StatVal.num 1)], 0, 30, [("h", HandlerRes.ok)]⟩ : Ctx HandlerRes) =
      (⟨[("k", StatVal.num 1)], 0, 30, [("h", HandlerRes.ok)]⟩, [], []) := by
    have hc : ((1 : ℚ) < 30) := by norm_num
    simp [processStats, hc]
  have h2 : processStats (fun (b : HandlerRes) (_ : Snapshot) => b) false 2
      (⟨[("k", StatVal.num 1)], 0, 30, [("h", HandlerRes.ok)]⟩ : Ctx HandlerRes) =
      (⟨[("k", StatVal.num 1)], 0, 30, [("h", HandlerRes.ok)]⟩, [], []) := by
    have hc : ((2 : ℚ) < 30) := by norm_num
    simp [processStats, hc]
  rw [h1, h2]
  simp

/-- C4 (amended): during a flush, every handler is invoked with the same
removed snapshot no matter what the other handlers raise; the bare except
in process_stats catches every exception a handler raises, including
KeyboardInterrupt and SystemExit, logs the handler id, and continues, so
no exception, process-control signals included, propagates out of
process_stats. -/
theorem C4_handler_isolation {H : Type} (emitOf : H → Snapshot → HandlerRes)
    (c : Ctx H) (now : ℚ)
    (hdue : ¬ (now - c.time < c.interval)) :
    (processStats emitOf false now c).2.1 =
      c.handlers.map (fun hh => (hh.1, c.data)) ∧
    (processStats emitOf false now c).2.2 =
      (c.handlers.filter (fun hh => emitOf hh.2 c.data != .ok)).map Prod.fst := by
  rw [processStats_flush emitOf false now c (by simp [hdue])]
  exact ⟨rfl, rfl⟩

/-- Witness for C4: a first handler raising KeyboardInterrupt is logged
and the second handler still receives the same snapshot. -/
theorem C4_handler_isolation_witness :
    (¬ ((35 : ℚ) - 0 < 30)) ∧
    (processStats (fun (b : HandlerRes) (_ : Snapshot) => b) false 35
      (⟨[("k", StatVal.num 1)], 0, 30,
        [("h1", HandlerRes.raise PyExc.keyboardInterrupt),
         ("h2", HandlerRes.ok)]⟩ : Ctx HandlerRes)).2.1 =
      [("h1", [("k", StatVal.num 1)]), ("h2", [("k", StatVal.num 1)])] := by
  refine ⟨by norm_num, ?_⟩
  have h := (C4_handler_isolation (fun (b : HandlerRes) (_ : Snapshot) => b)
    (⟨[("k", StatVal.num 1)], 0, 30,
      [("h1", HandlerRes.raise PyExc.keyboardInterrupt),
       ("h2", HandlerRes.ok)]⟩ : Ctx HandlerRes) 35 (by norm_num)).1
  rw [h]
  rfl

/-- Counterexample to C4 as stated: a handler raising KeyboardInterrupt
does not propagate out of process_stats; the bare except catches it, logs
the handler id h1, and the second handler h2 is still invoked, so the
call returns normally with both invocations recorded. -/
theorem C4_counterexample :
    processStats (fun (b : HandlerRes) (_ : Snapshot) => b) true 5
      (⟨[("k", StatVal.num 1)], 0, 30,
        [("h1", HandlerRes.raise PyExc.keyboardInterrupt),
         ("h2", HandlerRes.ok)]⟩ : Ctx HandlerRes) =
      (⟨[], 5, 30,
        [("h1", HandlerRes.raise PyExc.keyboardInterrupt),
         ("h2", HandlerRes.ok)]⟩,
       [("h1", [("k", StatVal.num 1)]), ("h2", [("k", StatVal.num 1)])],
       ["h1"]) := by
  simp [processStats, resetStats]
/-- C9 (amended): both SkyLogHandler.emit drafts build one line from the
snapshot entries sorted by key ascending, each rendered as
"key: str(value)", joined by ", " and wrapped in braces, and deliver it
through the logger at INFO severity; the stats_handlers.py draft produces
no output for an empty snapshot, but the stats.py draft logs the bare
brace pair even when the snapshot is empty. -/
theorem C9_skylog_emit {V : Type} (render : V → String)
    (data : List (String × V)) :
    ∃ ks : List String,
      ks.Perm (data.map Prod.fst) ∧ List.Sorted (· ≤ ·) ks ∧
      emitHandlers render data =
        (if data.length = 0 then []
         else [(Level.info, "\x7b" ++ String.intercalate ", "
            (ks.map (fun k => k ++ ": " ++ (match List.lookup k data with
                                            | some v => render v
                                            | none => ""))) ++ "\x7d")]) ∧
      emitStats render data =
        [(Level.info, "\x7b" ++ String.intercalate ", "
          (ks.map (fun k => k ++ ": " ++ (match List.lookup k data with
                                          | some v => render v
                                          | none => ""))) ++ "\x7d")] := by
  refine ⟨(data.map Prod.fst).insertionSort (· ≤ ·),
    List.perm_insertionSort _ _, List.sorted_insertionSort _ _, ?_, rfl⟩
  by_cases hd : data.length = 0
  · rcases List.length_eq_zero.mp hd with rfl
    simp [emitHandlers, emitLine]
  · simp [emitHandlers, emitLine, hd]

/-- Counterexample to C9 as stated: the stats.py draft of
SkyLogHandler.emit has no empty-snapshot check, so an empty snapshot is
rendered as the bare brace pair and logged at INFO severity instead of
producing no output. -/
theorem C9_counterexample :
    emitStats (fun (_ : Unit) => "") ([] : List (String × Unit)) =
      [(Level.info, "\x7b\x7d")] ∧
    emitStats (fun (_ : Unit) => "") ([] : List (String × Unit)) ≠ [] := by
  constructor
  · rfl
  · simp [emitStats]

/-- C8: make_pickle produces a frame of a 4-byte big-endian unsigned
length followed by exactly that many bytes of the structured-value
encoding of the dictionary obtained from render_dict() when the metric
supports it (else the value wrapper), merged with the enrichment
attributes and the caller's keyword arguments; lookup precedence is
kwargs over enrichment over the rendered dictionary. -/
theorem C8_make_pickle (encode : RDict → List ℕ) (m : MetricObj)
    (kwargs : RDict)
    (hlen : (encode (pickleDict m kwargs)).length < 2 ^ 32)
    (hkw : (kwargs.map Prod.fst).Nodup) :
    makePickle encode m kwargs =
      pack4BE (encode (pickleDict m kwargs)).length ++
        encode (pickleDict m kwargs) ∧
    (makePickle encode m kwargs).length =
      4 + (encode (pickleDict m kwargs)).length ∧
    unpack4BE (makePickle encode m kwargs) =
      (encode (pickleDict m kwargs)).length ∧
    (makePickle encode m kwargs).drop 4 = encode (pickleDict m kwargs) ∧
    (∀ k, List.lookup k (pickleDict m kwargs) =
      (List.lookup k kwargs).orElse (fun _ =>
        (List.lookup k (enrich m)).orElse (fun _ =>
          List.lookup k (m.renderDict.getD [("value", m.selfVal)])))) := by
  refine ⟨rfl, ?_, ?_, ?_, ?_⟩
  · simp [makePickle, pack4BE]
    omega
  · simp only [makePickle, pack4BE, unpack4BE, List.cons_append,
      List.nil_append]
    omega
  · simp [makePickle, pack4BE]
  · intro k
    unfold pickleDict
    rw [lookup_dictUpdate _ _ _ hkw,
      lookup_dictUpdate _ _ _ (by simp [enrich])]

/-- Witness for C8 at a rendered Counter with a name keyword and a
length-counting encoder. -/
theorem C8_make_pickle_witness :
    (((fun d : RDict => List.replicate d.length 0)
        (pickleDict ⟨some [("value", RVal.num 3)], RVal.num 3, "Counter"⟩
          [("name", RVal.str "cnt")])).length < 2 ^ 32 ∧
      (([("name", RVal.str "cnt")] : RDict).map Prod.fst).Nodup) ∧
    unpack4BE (makePickle (fun d : RDict => List.replicate d.length 0)
        ⟨some [("value", RVal.num 3)], RVal.num 3, "Counter"⟩
        [("name", RVal.str "cnt")]) =
      ((fun d : RDict => List.replicate d.length 0)
        (pickleDict ⟨some [("value", RVal.num 3)], RVal.num 3, "Counter"⟩
          [("name", RVal.str "cnt")])).length :=
  ⟨⟨by decide, by decide⟩,
   (C8_make_pickle (fun d : RDict => List.replicate d.length 0)
      ⟨some [("value", RVal.num 3)], RVal.num 3, "Counter"⟩
      [("name", RVal.str "cnt")] (by decide) (by decide)).2.2.1⟩
theorem backoff_step (p : ℚ) (k : ℕ) :
    min (min (p * retryFactor) retryMax * retryFactor ^ k) retryMax =
      min (p * retryFactor ^ (k + 1)) retryMax := by
  have h2k : (1 : ℚ) ≤ retryFactor ^ k := one_le_pow₀ (by norm_num [retryFactor])
  rcases le_or_lt (p * retryFactor) retryMax with h | h
  · rw [min_eq_left h]
    ring_nf
  · rw [min_eq_right h.le]
    have hA : retryMax ≤ retryMax * retryFactor ^ k :=
      le_mul_of_one_le_right (by norm_num [retryMax]) h2k
    rw [min_eq_right hA]
    have hB : retryMax ≤ p * retryFactor ^ (k + 1) := by
      calc retryMax ≤ retryMax * retryFactor ^ k := hA
        _ ≤ (p * retryFactor) * retryFactor ^ k := by
            apply mul_le_mul_of_nonneg_right h.le (by positivity)
        _ = p * retryFactor ^ (k + 1) := by ring
    rw [min_eq_right hB]

theorem failChain_some :
    ∀ (ts : List ℚ) (s : SockState) (rt t : ℚ),
      s.retryTime = some rt → 0 ≤ s.retryPeriod →
      chainDue s (ts ++ [t]) = true →
      failChain s (ts ++ [t]) =
        { s with
            retryPeriod := min (s.retryPeriod * retryFactor ^ (ts.length + 1)) retryMax,
            retryTime :=
              some (t + min (s.retryPeriod * retryFactor ^ (ts.length + 1)) retryMax) } := by
  intro ts
  induction ts with
  | nil =>
    intro s rt t hrt _ hdue
    simp only [List.nil_append, chainDue, hrt, Bool.and_eq_true,
      decide_eq_true_eq] at hdue
    simp [failChain, createSocket, hrt, decide_eq_true hdue.1, pow_one]
  | cons u ts ih =>
    intro s rt t hrt hp hdue
    simp only [List.cons_append, chainDue, hrt, Bool.and_eq_true,
      decide_eq_true_eq] at hdue
    have hstep : (createSocket u false s).1 =
        { s with
            retryPeriod := min (s.retryPeriod * retryFactor) retryMax,
            retryTime := some (u + min (s.retryPeriod * retryFactor) retryMax) } := by
      simp [createSocket, hrt, decide_eq_true hdue.1]
    have hfc : failChain s ((u :: ts) ++ [t]) =
        failChain (createSocket u false s).1 (ts ++ [t]) := by
      simp [failChain, List.foldl_cons]
    rw [hfc, hstep]
    have hp' : 0 ≤ min (s.retryPeriod * retryFactor) retryMax :=
      le_min (mul_nonneg hp (by norm_num [retryFactor])) (by norm_num [retryMax])
    have hdue' := hdue.2
    rw [hstep] at hdue'
    rw [ih _ _ t rfl hp' hdue']
    simp only [List.length_cons]
    rw [backoff_step]

theorem failChain_fresh (s : SockState) (ts : List ℚ) (t : ℚ)
    (hrt : s.retryTime = none)
    (hdue : chainDue s (ts ++ [t]) = true) :
    failChain s (ts ++ [t]) =
      { s with
          retryPeriod := min (retryStart * retryFactor ^ ts.length) retryMax,
          retryTime :=
            some (t + min (retryStart * retryFactor ^ ts.length) retryMax) } := by
  cases ts with
  | nil =>
    have : min (retryStart * retryFactor ^ (0 : ℕ)) retryMax = retryStart := by
      norm_num [retryStart, retryMax, retryFactor]
    simp only [List.length_nil, this]
    simp [failChain, createSocket, hrt]
  | cons u ts =>
    simp only [List.cons_append, chainDue, hrt, Bool.and_eq_true] at hdue
    have hstep : (createSocket u false s).1 =
        { s with retryPeriod := retryStart,
                 retryTime := some (u + retryStart) } := by
      simp [createSocket, hrt]
    have hfc : failChain s ((u :: ts) ++ [t]) =
        failChain (createSocket u false s).1 (ts ++ [t]) := by
      simp [failChain, List.foldl_cons]
    have hdue' := hdue.2
    rw [hstep] at hdue'
    rw [hfc, hstep, failChain_some ts _ (u + retryStart) t rfl
      (by norm_num [retryStart]) hdue']
    simp only [List.length_cons]

/-- C7: on each due failed connect attempt, create_socket sets
retry_period to retry_start on a first failure and to
min(retry_period*retry_factor, retry_max) on a later failure, and sets
retry_time to now + retry_period, so a run of consecutive due failures
from a fresh state yields the period sequence start, start*factor,
start*factor^2, ... capped at max; while retry_time is set and
now < retry_time, send with no socket drops the frame silently without
attempting a connect; a successful connect stores the socket and clears
retry_time. -/
theorem C7_reconnect_backoff :
    (∀ (s : SockState) (now : ℚ), s.retryTime = none →
      createSocket now false s =
        ({ s with retryPeriod := retryStart,
                  retryTime := some (now + retryStart) }, true)) ∧
    (∀ (s : SockState) (now t : ℚ), s.retryTime = some t → t ≤ now →
      createSocket now false s =
        ({ s with
            retryPeriod := min (s.retryPeriod * retryFactor) retryMax,
            retryTime :=
              some (now + min (s.retryPeriod * retryFactor) retryMax) }, true)) ∧
    (∀ (s : SockState) (ts : List ℚ) (t : ℚ), s.retryTime = none →
      chainDue s (ts ++ [t]) = true →
      (failChain s (ts ++ [t])).retryPeriod =
        min (retryStart * retryFactor ^ ts.length) retryMax ∧
      (failChain s (ts ++ [t])).retryTime =
        some (t + min (retryStart * retryFactor ^ ts.length) retryMax)) ∧
    (∀ (s : SockState) (now rt : ℚ) (co so : Bool), s.sock = false →
      s.retryTime = some rt → now < rt →
      send now co so s = (s, false, false)) ∧
    (∀ (s : SockState) (now : ℚ),
      (s.retryTime = none ∨ ∃ t, s.retryTime = some t ∧ t ≤ now) →
      createSocket now true s = ({ s with sock := true, retryTime := none }, true)) := by
  refine ⟨?_, ?_, ?_, ?_, ?_⟩
  · intro s now hrt
    simp [createSocket, hrt]
  · intro s now t hrt hle
    simp [createSocket, hrt, decide_eq_true hle]
  · intro s ts t hrt hdue
    rw [failChain_fresh s ts t hrt hdue]
    exact ⟨rfl, rfl⟩
  · intro s now rt co so hsock hrt hlt
    have hatt : createSocket now co s = (s, false) := by
      simp [createSocket, hrt, not_le.mpr hlt]
    simp [send, hsock, hatt]
  · intro s now h
    rcases h with hrt | ⟨t, hrt, hle⟩
    · simp [createSocket, hrt]
    · simp [createSocket, hrt, decide_eq_true hle]

/-- Witness for C7: a concrete chain of six due failures at times
0, 1, 3, 7, 15, 31 followed by one at 100 reaches the 30-second cap, a
pre-deadline send drops silently, and a due successful connect clears
retry_time. -/
theorem C7_reconnect_backoff_witness :
    (initSock.retryTime = none ∧
      chainDue initSock ([0, 1, 3, 7, 15, 31] ++ [100]) = true ∧
      (failChain initSock ([0, 1, 3, 7, 15, 31] ++ [100])).retryPeriod =
        min (retryStart * retryFactor ^ 6) retryMax ∧
      (failChain initSock ([0, 1, 3, 7, 15, 31] ++ [100])).retryTime =
        some (100 + min (retryStart * retryFactor ^ 6) retryMax)) ∧
    ((5 : ℚ) < 10 ∧
      send 5 true true ⟨false, some 10, 1⟩ = (⟨false, some 10, 1⟩, false, false)) ∧
    createSocket 0 true initSock = ({ initSock with sock := true, retryTime := none }, true) := by
  have hchain : chainDue initSock ([0, 1, 3, 7, 15, 31] ++ [100]) = true := by
    norm_num [chainDue, createSocket, initSock, retryStart, retryFactor, retryMax,
      min_def]
  refine ⟨⟨rfl, hchain, ?_⟩, ⟨by norm_num, ?_⟩, ?_⟩
  · exact (C7_reconnect_backoff.2.2.1 initSock [0, 1, 3, 7, 15, 31] 100 rfl hchain)
  · exact C7_reconnect_backoff.2.2.2.1 ⟨false, some 10, 1⟩ 5 10 true true rfl rfl
      (by norm_num)
  · exact C7_reconnect_backoff.2.2.2.2 initSock 0 (Or.inl rfl)
/-- C6 (amended): GaugeWGMean's evaluation equals the weighted log-mean
only for the first update: after a single update (x, w) with x > 0 and
w > 0 on a fresh aggregate, eval returns (w * ln x) / w = ln x; on every
later update the stored value, which is already a logarithm, is passed
through math.log again, so for two or more samples eval is not the
weighted arithmetic mean of the logarithms of the samples. -/
theorem C6_wgmean_first_update (x w : ℝ) (hx : 0 < x) (hw : 0 < w) :
    GaugeWGMean.eval (GaugeWGMean.update GaugeWGMean.init (x, w)) =
      (w * Real.log x) / w ∧
    GaugeWGMean.eval (GaugeWGMean.update GaugeWGMean.init (x, w)) =
      Real.log x := by
  have h1 : GaugeWGMean.eval (GaugeWGMean.update GaugeWGMean.init (x, w)) =
      (w * Real.log x) / w := by
    simp [GaugeWGMean.eval, GaugeWGMean.update, GaugeWGMean.init, Real.log_one,
      mul_comm]
  exact ⟨h1, by rw [h1, mul_comm, mul_div_assoc, div_self (ne_of_gt hw), mul_one]⟩

/-- Witness for C6 at the sample (2, 3). -/
theorem C6_wgmean_first_update_witness :
    (0 : ℝ) < 2 ∧ (0 : ℝ) < 3 ∧
    GaugeWGMean.eval (GaugeWGMean.update GaugeWGMean.init (2, 3)) =
      Real.log 2 :=
  ⟨by norm_num, by norm_num,
   (C6_wgmean_first_update 2 3 (by norm_num) (by norm_num)).2⟩

/-- Counterexample to C6 as stated: after the updates (2, 3) and (3, 2)
the stored value is (ln(ln 2) * 3 + ln 3 * 2) / 5, because update applies
math.log to the already-logarithmic stored state; this differs from the
weighted log-mean (3 * ln 2 + 2 * ln 3) / (3 + 2) since ln(ln 2) < 0 <
ln 2. -/
theorem C6_counterexample :
    GaugeWGMean.eval
        (GaugeWGMean.update (GaugeWGMean.update GaugeWGMean.init (2, 3)) (3, 2)) ≠
      (3 * Real.log 2 + 2 * Real.log 3) / (3 + 2) := by
  have e1 : GaugeWGMean.update GaugeWGMean.init (2, 3) = (Real.log 2, 3) := by
    simp [GaugeWGMean.update, GaugeWGMean.init, Real.log_one]
  rw [e1]
  simp only [GaugeWGMean.eval, GaugeWGMean.update]
  have hp : 0 < Real.log 2 := Real.log_pos (by norm_num)
  have hl : Real.log 2 < 1 := lt_trans Real.log_two_lt_d9 (by norm_num)
  have hn : Real.log (Real.log 2) < 0 := Real.log_neg hp hl
  intro h
  rw [div_eq_div_iff (by norm_num) (by norm_num)] at h
  nlinarith [h]

/-! ## C1 : state-level merge additivity lemmas -/

theorem counter_foldl_shift :
    ∀ (B : List ℚ) (s t : ℚ),
      B.foldl Counter.update (s + t) = s + B.foldl Counter.update t := by
  intro B
  induction B with
  | nil => intro s t; rfl
  | cons b B ih =>
    intro s t
    simp only [List.foldl_cons, Counter.update]
    rw [add_assoc]
    exact ih s (t + b)

theorem counter_state (A B : List ℚ) :
    Counter.merge (Counter.aggregate A) (Counter.aggregate B) =
      Counter.aggregate (A ++ B) := by
  have h := counter_foldl_shift B (A.foldl Counter.update 0) 0
  rw [add_zero] at h
  simp only [Counter.aggregate, Counter.merge, Counter.update, List.foldl_append]
  exact h.symm

theorem amean_foldl_shift :
    ∀ (B : List ℚ) (c c' : ℕ) (q q' : ℚ),
      B.foldl GaugeAMean.update ⟨c + c', q + q'⟩ =
        ⟨c + (B.foldl GaugeAMean.update ⟨c', q'⟩).count,
         q + (B.foldl GaugeAMean.update ⟨c', q'⟩).temp⟩ := by
  intro B
  induction B with
  | nil => intro c c' q q'; rfl
  | cons b B ih =>
    intro c c' q q'
    simp only [List.foldl_cons, GaugeAMean.update]
    rw [show c + c' + 1 = c + (c' + 1) from add_assoc c c' 1,
      show q + q' + b = q + (q' + b) from add_assoc q q' b]
    exact ih c (c' + 1) q (q' + b)

theorem amean_state (A B : List ℚ) :
    GaugeAMean.merge (GaugeAMean.aggregate A) (GaugeAMean.aggregate B) =
      GaugeAMean.aggregate (A ++ B) := by
  simp only [GaugeAMean.aggregate, List.foldl_append]
  have h := amean_foldl_shift B (A.foldl GaugeAMean.update ⟨0, 0⟩).count 0
    (A.foldl GaugeAMean.update ⟨0, 0⟩).temp 0
  simp only [add_zero] at h
  rw [h]
  rfl

theorem hmean_foldl_shift :
    ∀ (B : List ℚ) (c c' : ℕ) (q q' : ℚ),
      B.foldl GaugeHMean.update ⟨c + c', q + q'⟩ =
        ⟨c + (B.foldl GaugeHMean.update ⟨c', q'⟩).count,
         q + (B.foldl GaugeHMean.update ⟨c', q'⟩).temp⟩ := by
  intro B
  induction B with
  | nil => intro c c' q q'; rfl
  | cons b B ih =>
    intro c c' q q'
    simp only [List.foldl_cons, GaugeHMean.update]
    rw [show c + c' + 1 = c + (c' + 1) from add_assoc c c' 1,
      show q + q' + 1 / b = q + (q' + 1 / b) from add_assoc q q' (1 / b)]
    exact ih c (c' + 1) q (q' + 1 / b)

theorem hmean_state (A B : List ℚ) :
    GaugeHMean.merge (GaugeHMean.aggregate A) (GaugeHMean.aggregate B) =
      GaugeHMean.aggregate (A ++ B) := by
  simp only [GaugeHMean.aggregate, List.foldl_append]
  have h := hmean_foldl_shift B (A.foldl GaugeHMean.update ⟨0, 0⟩).count 0
    (A.foldl GaugeHMean.update ⟨0, 0⟩).temp 0
  simp only [add_zero] at h
  rw [h]
  rfl

theorem qmean_foldl_shift :
    ∀ (B : List ℚ) (c c' : ℕ) (q q' : ℚ),
      B.foldl GaugeQMean.update ⟨c + c', q + q'⟩ =
        ⟨c + (B.foldl GaugeQMean.update ⟨c', q'⟩).count,
         q + (B.foldl GaugeQMean.update ⟨c', q'⟩).temp⟩ := by
  intro B
  induction B with
  | nil => intro c c' q q'; rfl
  | cons b B ih =>
    intro c c' q q'
    simp only [List.foldl_cons, GaugeQMean.update]
    rw [show c + c' + 1 = c + (c' + 1) from add_assoc c c' 1,
      show q + q' + b ^ 2 = q + (q' + b ^ 2) from add_assoc q q' (b ^ 2)]
    exact ih c (c' + 1) q (q' + b ^ 2)

theorem qmean_state (A B : List ℚ) :
    GaugeQMean.merge (GaugeQMean.aggregate A) (GaugeQMean.aggregate B) =
      GaugeQMean.aggregate (A ++ B) := by
  simp only [GaugeQMean.aggregate, List.foldl_append]
  have h := qmean_foldl_shift B (A.foldl GaugeQMean.update ⟨0, 0⟩).count 0
    (A.foldl GaugeQMean.update ⟨0, 0⟩).temp 0
  simp only [add_zero] at h
  rw [h]
  rfl

theorem gmean_foldl_shift :
    ∀ (B : List ℚ) (c c' : ℕ) (q q' : ℚ),
      B.foldl GaugeGMean.update ⟨c + c', q * q'⟩ =
        ⟨c + (B.foldl GaugeGMean.update ⟨c', q'⟩).count,
         q * (B.foldl GaugeGMean.update ⟨c', q'⟩).temp⟩ := by
  intro B
  induction B with
  | nil => intro c c' q q'; rfl
  | cons b B ih =>
    intro c c' q q'
    simp only [List.foldl_cons, GaugeGMean.update]
    rw [show c + c' + 1 = c + (c' + 1) from add_assoc c c' 1,
      show q * q' * b = q * (q' * b) from mul_assoc q q' b]
    exact ih c (c' + 1) q (q' * b)

theorem gmean_state (A B : List ℚ) :
    GaugeGMean.merge (GaugeGMean.aggregate A) (GaugeGMean.aggregate B) =
      GaugeGMean.aggregate (A ++ B) := by
  simp only [GaugeGMean.aggregate, List.foldl_append]
  have h := gmean_foldl_shift B (A.foldl GaugeGMean.update ⟨0, 1⟩).count 0
    (A.foldl GaugeGMean.update ⟨0, 1⟩).temp 1
  simp only [add_zero, mul_one] at h
  rw [h]
  rfl

theorem gmin_update_some (a x : ℚ) :
    GaugeMin.update (some a) x = some (min a x) := by
  simp only [GaugeMin.update, GaugeMin.updateOpt, pyLt]
  rcases lt_or_le x a with h | h
  · simp [h, min_eq_right h.le]
  · simp [not_lt.mpr h, min_eq_left h]

theorem gmin_foldl (l : List ℚ) :
    ∀ a : ℚ, l.foldl GaugeMin.update (some a) = some (l.foldl min a) := by
  induction l with
  | nil => intro a; rfl
  | cons x l ih =>
    intro a
    simp only [List.foldl_cons, gmin_update_some]
    exact ih (min a x)

theorem foldl_min_shift (l : List ℚ) :
    ∀ a b : ℚ, l.foldl min (min a b) = min a (l.foldl min b) := by
  induction l with
  | nil => intro a b; rfl
  | cons c l ih =>
    intro a b
    simp only [List.foldl_cons, min_assoc]
    exact ih a (min b c)

theorem gmin_state (A B : List ℚ) (hA : A ≠ []) (hB : B ≠ []) :
    GaugeMin.merge (GaugeMin.aggregate A) (GaugeMin.aggregate B) =
      GaugeMin.aggregate (A ++ B) := by
  obtain ⟨a, A', rfl⟩ := List.exists_cons_of_ne_nil hA
  obtain ⟨b, B', rfl⟩ := List.exists_cons_of_ne_nil hB
  have hupd : ∀ y : ℚ, GaugeMin.update none y = some y := by
    intro y; simp [GaugeMin.update, GaugeMin.updateOpt]
  have e1 : GaugeMin.aggregate (a :: A') = some (A'.foldl min a) := by
    simp only [GaugeMin.aggregate, List.foldl_cons, hupd a, gmin_foldl]
  have e2 : GaugeMin.aggregate (b :: B') = some (B'.foldl min b) := by
    simp only [GaugeMin.aggregate, List.foldl_cons, hupd b, gmin_foldl]
  have e3 : GaugeMin.aggregate ((a :: A') ++ (b :: B')) =
      some (((A' ++ b :: B')).foldl min a) := by
    simp only [List.cons_append, GaugeMin.aggregate, List.foldl_cons, hupd a,
      gmin_foldl]
  have hmerge : GaugeMin.merge (some (A'.foldl min a)) (some (B'.foldl min b)) =
      some (min (A'.foldl min a) (B'.foldl min b)) := by
    simp only [GaugeMin.merge, GaugeMin.updateOpt, pyLt]
    rcases lt_or_le (B'.foldl min b) (A'.foldl min a) with h | h
    · simp [h, min_eq_right h.le]
    · simp [not_lt.mpr h, min_eq_left h]
  rw [e1, e2, e3, hmerge, List.foldl_append]
  simp only [List.foldl_cons]
  rw [foldl_min_shift]

theorem gmax_update_some (a x : ℚ) :
    GaugeMax.update (some a) x = some (max a x) := by
  simp only [GaugeMax.update, GaugeMax.updateOpt, pyGt]
  rcases lt_or_le a x with h | h
  · simp [h, max_eq_right h.le]
  · simp [not_lt.mpr h, max_eq_left h]

theorem gmax_foldl (l : List ℚ) :
    ∀ a : ℚ, l.foldl GaugeMax.update (some a) = some (l.foldl max a) := by
  induction l with
  | nil => intro a; rfl
  | cons x l ih =>
    intro a
    simp only [List.foldl_cons, gmax_update_some]
    exact ih (max a x)

theorem foldl_max_shift (l : List ℚ) :
    ∀ a b : ℚ, l.foldl max (max a b) = max a (l.foldl max b) := by
  induction l with
  | nil => intro a b; rfl
  | cons c l ih =>
    intro a b
    simp only [List.foldl_cons, max_assoc]
    exact ih a (max b c)

theorem gmax_state (A B : List ℚ) (hA : A ≠ []) (hB : B ≠ []) :
    GaugeMax.merge (GaugeMax.aggregate A) (GaugeMax.aggregate B) =
      GaugeMax.aggregate (A ++ B) := by
  obtain ⟨a, A', rfl⟩ := List.exists_cons_of_ne_nil hA
  obtain ⟨b, B', rfl⟩ := List.exists_cons_of_ne_nil hB
  have hupd : ∀ y : ℚ, GaugeMax.update none y = some y := by
    intro y; simp [GaugeMax.update, GaugeMax.updateOpt]
  have e1 : GaugeMax.aggregate (a :: A') = some (A'.foldl max a) := by
    simp only [GaugeMax.aggregate, List.foldl_cons, hupd a, gmax_foldl]
  have e2 : GaugeMax.aggregate (b :: B') = some (B'.foldl max b) := by
    simp only [GaugeMax.aggregate, List.foldl_cons, hupd b, gmax_foldl]
  have e3 : GaugeMax.aggregate ((a :: A') ++ (b :: B')) =
      some (((A' ++ b :: B')).foldl max a) := by
    simp only [List.cons_append, GaugeMax.aggregate, List.foldl_cons, hupd a,
      gmax_foldl]
  have hmerge : GaugeMax.merge (some (A'.foldl max a)) (some (B'.foldl max b)) =
      some (max (A'.foldl max a) (B'.foldl max b)) := by
    simp only [GaugeMax.merge, GaugeMax.updateOpt, pyGt]
    rcases lt_or_le (A'.foldl max a) (B'.foldl max b) with h | h
    · simp [h, max_eq_right h.le]
    · simp [not_lt.mpr h, max_eq_left h]
  rw [e1, e2, e3, hmerge, List.foldl_append]
  simp only [List.foldl_cons]
  rw [foldl_max_shift]

theorem mr_update_some (a b x : ℚ) :
    GaugeMidRange.update ⟨some a, some b⟩ x = ⟨some (min a x), some (max b x)⟩ := by
  have hmn : (if pyLt (some x) (some a) = true
      then some x else some a) = some (min a x) := by
    simp only [pyLt]
    rcases lt_or_le x a with h | h
    · simp [h, min_eq_right h.le]
    · simp [not_lt.mpr h, min_eq_left h]
  have hmx : (if pyGt (some x) (some b) = true
      then some x else some b) = some (max b x) := by
    simp only [pyGt]
    rcases lt_or_le b x with h | h
    · simp [h, max_eq_right h.le]
    · simp [not_lt.mpr h, max_eq_left h]
  simp [GaugeMidRange.update, hmn, hmx]

theorem mr_foldl (l : List ℚ) :
    ∀ a b : ℚ, l.foldl GaugeMidRange.update ⟨some a, some b⟩ =
      ⟨some (l.foldl min a), some (l.foldl max b)⟩ := by
  induction l with
  | nil => intro a b; rfl
  | cons x l ih =>
    intro a b
    simp only [List.foldl_cons, mr_update_some]
    exact ih (min a x) (max b x)

theorem mr_state (A B : List ℚ) (hA : A ≠ []) (hB : B ≠ []) :
    GaugeMidRange.merge (GaugeMidRange.aggregate A) (GaugeMidRange.aggregate B) =
      GaugeMidRange.aggregate (A ++ B) := by
  obtain ⟨a, A', rfl⟩ := List.exists_cons_of_ne_nil hA
  obtain ⟨b, B', rfl⟩ := List.exists_cons_of_ne_nil hB
  have hupd : ∀ y : ℚ, GaugeMidRange.update ⟨none, none⟩ y = ⟨some y, some y⟩ := by
    intro y; simp [GaugeMidRange.update]
  have e1 : GaugeMidRange.aggregate (a :: A') =
      ⟨some (A'.foldl min a), some (A'.foldl max a)⟩ := by
    simp only [GaugeMidRange.aggregate, List.foldl_cons, hupd a, mr_foldl]
  have e2 : GaugeMidRange.aggregate (b :: B') =
      ⟨some (B'.foldl min b), some (B'.foldl max b)⟩ := by
    simp only [GaugeMidRange.aggregate, List.foldl_cons, hupd b, mr_foldl]
  have e3 : GaugeMidRange.aggregate ((a :: A') ++ (b :: B')) =
      ⟨some (((A' ++ b :: B')).foldl min a), some (((A' ++ b :: B')).foldl max a)⟩ := by
    simp only [List.cons_append, GaugeMidRange.aggregate, List.foldl_cons,
      hupd a, mr_foldl]
  have hmerge :
      GaugeMidRange.merge ⟨some (A'.foldl min a), some (A'.foldl max a)⟩
          ⟨some (B'.foldl min b), some (B'.foldl max b)⟩ =
        ⟨some (min (A'.foldl min a) (B'.foldl min b)),
         some (max (A'.foldl max a) (B'.foldl max b))⟩ := by
    have hmn : (if pyLt (some (B'.foldl min b)) (some (A'.foldl min a)) = true
        then some (B'.foldl min b) else some (A'.foldl min a)) =
        some (min (A'.foldl min a) (B'.foldl min b)) := by
      simp only [pyLt]
      rcases lt_or_le (B'.foldl min b) (A'.foldl min a) with h | h
      · simp [h, min_eq_right h.le]
      · simp [not_lt.mpr h, min_eq_left h]
    have hmx : (if pyGt (some (B'.foldl max b)) (some (A'.foldl max a)) = true
        then some (B'.foldl max b) else some (A'.foldl max a)) =
        some (max (A'.foldl max a) (B'.foldl max b)) := by
      simp only [pyGt]
      rcases lt_or_le (A'.foldl max a) (B'.foldl max b) with h | h
      · simp [h, max_eq_right h.le]
      · simp [not_lt.mpr h, max_eq_left h]
    simp [GaugeMidRange.merge, hmn, hmx]
  rw [e1, e2, e3, hmerge, List.foldl_append, List.foldl_append]
  simp only [List.foldl_cons]
  rw [foldl_min_shift, foldl_max_shift]

theorem median_foldl (l : List ℚ) :
    ∀ s : List ℚ, l.foldl GaugeMedian.update s = s ++ l := by
  induction l with
  | nil => intro s; simp
  | cons x l ih =>
    intro s
    simp only [List.foldl_cons, GaugeMedian.update]
    rw [ih, List.append_assoc]
    rfl

theorem median_state (A B : List ℚ) :
    GaugeMedian.merge (GaugeMedian.aggregate A) (GaugeMedian.aggregate B) =
      GaugeMedian.aggregate (A ++ B) := by
  simp [GaugeMedian.merge, GaugeMedian.aggregate, median_foldl]

theorem bump_add (m : ModeMap) (k : ℚ) (a b : ℕ) :
    GaugeMode.bump (GaugeMode.bump m k a) k b = GaugeMode.bump m k (a + b) := by
  induction m with
  | nil => simp [GaugeMode.bump, Nat.add_assoc]
  | cons e rest ih =>
    obtain ⟨k', c'⟩ := e
    by_cases h : k' = k
    · simp [GaugeMode.bump, h, Nat.add_assoc]
    · simp [GaugeMode.bump, h, ih]

theorem mem_keys_bump_self (m : ModeMap) (k : ℚ) (c : ℕ) :
    k ∈ (GaugeMode.bump m k c).map Prod.fst := by
  induction m with
  | nil => simp [GaugeMode.bump]
  | cons e rest ih =>
    obtain ⟨k', c'⟩ := e
    by_cases h : k' = k
    · simp [GaugeMode.bump, h]
    · simp [GaugeMode.bump, h]
      exact Or.inr (by simpa using ih)

theorem mem_keys_bump_mono (m : ModeMap) (k k₀ : ℚ) (c : ℕ)
    (h : k₀ ∈ m.map Prod.fst) :
    k₀ ∈ (GaugeMode.bump m k c).map Prod.fst := by
  induction m with
  | nil => simp at h
  | cons e rest ih =>
    obtain ⟨k', c'⟩ := e
    by_cases hk : k' = k
    · simpa [GaugeMode.bump, hk] using h
    · simp only [List.map_cons, List.mem_cons] at h
      rcases h with h | h
      · simp [GaugeMode.bump, hk, h]
      · simp [GaugeMode.bump, hk]
        exact Or.inr (by simpa using ih h)

theorem bump_comm_of_mem (m : ModeMap) (v k : ℚ) (c c' : ℕ)
    (hv : v ∈ m.map Prod.fst) (hne : k ≠ v) :
    GaugeMode.bump (GaugeMode.bump m v c) k c' =
      GaugeMode.bump (GaugeMode.bump m k c') v c := by
  induction m with
  | nil => simp at hv
  | cons e rest ih =>
    obtain ⟨a, b⟩ := e
    by_cases hav : a = v
    · subst hav
      have hak : ¬ a = k := fun h => hne h.symm
      simp [GaugeMode.bump, hak]
    · by_cases hak : a = k
      · subst hak
        simp [GaugeMode.bump, hav, Ne.symm hne]
      · have hv' : v ∈ rest.map Prod.fst := by
          simp only [List.map_cons, List.mem_cons] at hv
          rcases hv with h | h
          · exact absurd h.symm hav
          · exact h
        simp [GaugeMode.bump, hav, hak, ih hv']

theorem foldl_bump_of_mem :
    ∀ (rest : ModeMap) (m : ModeMap) (v : ℚ) (c : ℕ),
      v ∈ m.map Prod.fst →
      rest.foldl (fun acc p => GaugeMode.bump acc p.1 p.2) (GaugeMode.bump m v c) =
        GaugeMode.bump (rest.foldl (fun acc p => GaugeMode.bump acc p.1 p.2) m) v c := by
  intro rest
  induction rest with
  | nil => intro m v c _; rfl
  | cons p rest ih =>
    intro m v c hv
    obtain ⟨k, cnt⟩ := p
    simp only [List.foldl_cons]
    by_cases hk : k = v
    · subst hk
      rw [bump_add, Nat.add_comm, ← bump_add]
      exact ih _ _ _ (mem_keys_bump_self m k cnt)
    · rw [bump_comm_of_mem m v k c cnt hv hk]
      exact ih _ _ _ (mem_keys_bump_mono m k v cnt hv)

theorem merge_bump :
    ∀ (mb m : ModeMap) (v : ℚ) (c : ℕ),
      GaugeMode.merge m (GaugeMode.bump mb v c) =
        GaugeMode.bump (GaugeMode.merge m mb) v c := by
  intro mb
  induction mb with
  | nil => intro m v c; rfl
  | cons e rest ih =>
    intro m v c
    obtain ⟨k, c₀⟩ := e
    by_cases h : k = v
    · subst h
      simp only [GaugeMode.bump, if_pos rfl]
      show rest.foldl (fun acc p => GaugeMode.bump acc p.1 p.2)
          (GaugeMode.bump m k (c₀ + c)) = _
      rw [← bump_add]
      rw [foldl_bump_of_mem rest _ k c (mem_keys_bump_self m k c₀)]
      rfl
    · simp only [GaugeMode.bump, if_neg h]
      show (GaugeMode.bump rest v c).foldl (fun acc p => GaugeMode.bump acc p.1 p.2)
          (GaugeMode.bump m k c₀) = _
      exact ih (GaugeMode.bump m k c₀) v c

theorem merge_foldl_update :
    ∀ (B : List ℚ) (m mb : ModeMap),
      GaugeMode.merge m (B.foldl GaugeMode.update mb) =
        B.foldl GaugeMode.update (GaugeMode.merge m mb) := by
  intro B
  induction B with
  | nil => intro m mb; rfl
  | cons v B ih =>
    intro m mb
    simp only [List.foldl_cons]
    rw [ih]
    have hstep : GaugeMode.merge m (GaugeMode.update mb v) =
        GaugeMode.update (GaugeMode.merge m mb) v := by
      simpa [GaugeMode.update] using merge_bump mb m v 1
    rw [hstep]

theorem mode_state (A B : List ℚ) :
    GaugeMode.merge (GaugeMode.aggregate A) (GaugeMode.aggregate B) =
      GaugeMode.aggregate (A ++ B) := by
  simp only [GaugeMode.aggregate, List.foldl_append]
  rw [merge_foldl_update]
  rfl

/-- C1 (amended): merge additivity of the metric algebra holds for every
sample sequence split into two non-empty parts A and B (with positive
samples for the geometric and harmonic means, as their update asserts):
building one fresh aggregate from A and another from B, merging them and
evaluating gives the same result as building a single fresh aggregate
from the whole sequence, exactly, for each of Counter, GaugeAMean,
GaugeGMean, GaugeHMean, GaugeQMean, GaugeMidRange, GaugeMedian,
GaugeMode, GaugeMin and GaugeMax.  Merging an aggregate built from an
empty part breaks the law for GaugeMin and GaugeMidRange, because the
Python 2 comparison None < number holds. -/
theorem C1_merge_additivity :
    (∀ A B : List ℚ, A ≠ [] → B ≠ [] →
      Counter.eval (Counter.merge (Counter.aggregate A) (Counter.aggregate B)) =
        Counter.eval (Counter.aggregate (A ++ B))) ∧
    (∀ A B : List ℚ, A ≠ [] → B ≠ [] →
      GaugeAMean.eval (GaugeAMean.merge (GaugeAMean.aggregate A)
          (GaugeAMean.aggregate B)) =
        GaugeAMean.eval (GaugeAMean.aggregate (A ++ B))) ∧
    (∀ A B : List ℚ, A ≠ [] → B ≠ [] → (∀ x ∈ A ++ B, 0 < x) →
      GaugeGMean.eval (GaugeGMean.merge (GaugeGMean.aggregate A)
          (GaugeGMean.aggregate B)) =
        GaugeGMean.eval (GaugeGMean.aggregate (A ++ B))) ∧
    (∀ A B : List ℚ, A ≠ [] → B ≠ [] → (∀ x ∈ A ++ B, 0 < x) →
      GaugeHMean.eval (GaugeHMean.merge (GaugeHMean.aggregate A)
          (GaugeHMean.aggregate B)) =
        GaugeHMean.eval (GaugeHMean.aggregate (A ++ B))) ∧
    (∀ A B : List ℚ, A ≠ [] → B ≠ [] →
      GaugeQMean.eval (GaugeQMean.merge (GaugeQMean.aggregate A)
          (GaugeQMean.aggregate B)) =
        GaugeQMean.eval (GaugeQMean.aggregate (A ++ B))) ∧
    (∀ A B : List ℚ, A ≠ [] → B ≠ [] →
      GaugeMidRange.eval (GaugeMidRange.merge (GaugeMidRange.aggregate A)
          (GaugeMidRange.aggregate B)) =
        GaugeMidRange.eval (GaugeMidRange.aggregate (A ++ B))) ∧
    (∀ A B : List ℚ, A ≠ [] → B ≠ [] →
      GaugeMedian.eval (GaugeMedian.merge (GaugeMedian.aggregate A)
          (GaugeMedian.aggregate B)) =
        GaugeMedian.eval (GaugeMedian.aggregate (A ++ B))) ∧
    (∀ A B : List ℚ, A ≠ [] → B ≠ [] →
      GaugeMode.eval (GaugeMode.merge (GaugeMode.aggregate A)
          (GaugeMode.aggregate B)) =
        GaugeMode.eval (GaugeMode.aggregate (A ++ B))) ∧
    (∀ A B : List ℚ, A ≠ [] → B ≠ [] →
      GaugeMin.eval (GaugeMin.merge (GaugeMin.aggregate A)
          (GaugeMin.aggregate B)) =
        GaugeMin.eval (GaugeMin.aggregate (A ++ B))) ∧
    (∀ A B : List ℚ, A ≠ [] → B ≠ [] →
      GaugeMax.eval (GaugeMax.merge (GaugeMax.aggregate A)
          (GaugeMax.aggregate B)) =
        GaugeMax.eval (GaugeMax.aggregate (A ++ B))) := by
  refine ⟨?_, ?_, ?_, ?_, ?_, ?_, ?_, ?_, ?_, ?_⟩
  · intro A B _ _
    exact congrArg Counter.eval (counter_state A B)
  · intro A B _ _
    exact congrArg GaugeAMean.eval (amean_state A B)
  · intro A B _ _ _
    exact congrArg GaugeGMean.eval (gmean_state A B)
  · intro A B _ _ _
    exact congrArg GaugeHMean.eval (hmean_state A B)
  · intro A B _ _
    exact congrArg GaugeQMean.eval (qmean_state A B)
  · intro A B hA hB
    exact congrArg GaugeMidRange.eval (mr_state A B hA hB)
  · intro A B _ _
    exact congrArg GaugeMedian.eval (median_state A B)
  · intro A B _ _
    exact congrArg GaugeMode.eval (mode_state A B)
  · intro A B hA hB
    exact congrArg GaugeMin.eval (gmin_state A B hA hB)
  · intro A B hA hB
    exact congrArg GaugeMax.eval (gmax_state A B hA hB)

/-- Witness for C1 at the non-empty positive parts A = [1, 2], B = [3]. -/
theorem C1_merge_additivity_witness :
    (([1, 2] : List ℚ) ≠ [] ∧ ([3] : List ℚ) ≠ [] ∧
      (∀ x ∈ ([1, 2] ++ [3] : List ℚ), 0 < x)) ∧
    Counter.eval (Counter.merge (Counter.aggregate [1, 2]) (Counter.aggregate [3])) =
      Counter.eval (Counter.aggregate ([1, 2] ++ [3])) ∧
    GaugeAMean.eval (GaugeAMean.merge (GaugeAMean.aggregate [1, 2])
        (GaugeAMean.aggregate [3])) =
      GaugeAMean.eval (GaugeAMean.aggregate ([1, 2] ++ [3])) ∧
    GaugeGMean.eval (GaugeGMean.merge (GaugeGMean.aggregate [1, 2])
        (GaugeGMean.aggregate [3])) =
      GaugeGMean.eval (GaugeGMean.aggregate ([1, 2] ++ [3])) ∧
    GaugeHMean.eval (GaugeHMean.merge (GaugeHMean.aggregate [1, 2])
        (GaugeHMean.aggregate [3])) =
      GaugeHMean.eval (GaugeHMean.aggregate ([1, 2] ++ [3])) ∧
    GaugeQMean.eval (GaugeQMean.merge (GaugeQMean.aggregate [1, 2])
        (GaugeQMean.aggregate [3])) =
      GaugeQMean.eval (GaugeQMean.aggregate ([1, 2] ++ [3])) ∧
    GaugeMidRange.eval (GaugeMidRange.merge (GaugeMidRange.aggregate [1, 2])
        (GaugeMidRange.aggregate [3])) =
      GaugeMidRange.eval (GaugeMidRange.aggregate ([1, 2] ++ [3])) ∧
    GaugeMedian.eval (GaugeMedian.merge (GaugeMedian.aggregate [1, 2])
        (GaugeMedian.aggregate [3])) =
      GaugeMedian.eval (GaugeMedian.aggregate ([1, 2] ++ [3])) ∧
    GaugeMode.eval (GaugeMode.merge (GaugeMode.aggregate [1, 2])
        (GaugeMode.aggregate [3])) =
      GaugeMode.eval (GaugeMode.aggregate ([1, 2] ++ [3])) ∧
    GaugeMin.eval (GaugeMin.merge (GaugeMin.aggregate [1, 2])
        (GaugeMin.aggregate [3])) =
      GaugeMin.eval (GaugeMin.aggregate ([1, 2] ++ [3])) ∧
    GaugeMax.eval (GaugeMax.merge (GaugeMax.aggregate [1, 2])
        (GaugeMax.aggregate [3])) =
      GaugeMax.eval (GaugeMax.aggregate ([1, 2] ++ [3])) :=
  ⟨⟨by decide, by decide, by decide⟩,
   C1_merge_additivity.1 [1, 2] [3] (by decide) (by decide),
   C1_merge_additivity.2.1 [1, 2] [3] (by decide) (by decide),
   C1_merge_additivity.2.2.1 [1, 2] [3] (by decide) (by decide) (by decide),
   C1_merge_additivity.2.2.2.1 [1, 2] [3] (by decide) (by decide) (by decide),
   C1_merge_additivity.2.2.2.2.1 [1, 2] [3] (by decide) (by decide),
   C1_merge_additivity.2.2.2.2.2.1 [1, 2] [3] (by decide) (by decide),
   C1_merge_additivity.2.2.2.2.2.2.1 [1, 2] [3] (by decide) (by decide),
   C1_merge_additivity.2.2.2.2.2.2.2.1 [1, 2] [3] (by decide) (by decide),
   C1_merge_additivity.2.2.2.2.2.2.2.2.1 [1, 2] [3] (by decide) (by decide),
   C1_merge_additivity.2.2.2.2.2.2.2.2.2 [1, 2] [3] (by decide) (by decide)⟩

/-- Counterexample to C1 as stated: split the one-sample sequence [1]
into A = [1] and B = []; GaugeMin.merge passes that.value = None to
update, and in Python 2 None < 1 holds, so the merged aggregate
evaluates to None while the aggregate of the whole sequence evaluates
to 1. -/
theorem C1_counterexample :
    GaugeMin.eval (GaugeMin.merge (GaugeMin.aggregate [1]) (GaugeMin.aggregate [])) ≠
      GaugeMin.eval (GaugeMin.aggregate ([1] ++ [])) := by
  decide

end Skytools
